import Mathlib

/-!
Shallow embedding of the EventApp core (identity store, proof-of-work
admission, validation engine, package builder, archive exporter) and
proofs of the specification claims about it.

JavaScript values are modelled as follows: the dynamic field values
`string | number | boolean | null` become the inductive `FieldValue`
(numbers as rationals), `undefined` results of record lookup become
`Option`, JS records become association lists with upsert semantics,
thrown exceptions become `Except`, and the nondeterministic inputs
(current time, generated UUID, generated key pair) become explicit
parameters.
-/

set_option maxHeartbeats 1000000

namespace EventApp

/-- A runtime field value: `string | number | boolean | null`
(src/types/event.ts, `FieldValue`). JS numbers are modelled as rationals. -/
inductive FieldValue where
  | vStr (s : String)
  | vNum (n : Rat)
  | vBool (b : Bool)
  | vNull
  deriving DecidableEq

/-- The `type` discriminator of a schema label (src/labels/label-manager.ts). -/
inductive LabelType where
  | date | text | number | enum | media | boolean
  deriving DecidableEq

/-- Optional constraints of a label (src/labels/label-manager.ts). -/
structure Constraints where
  maxLength : Option Rat := none
  minLength : Option Rat := none
  pattern : Option String := none
  min : Option Rat := none
  max : Option Rat := none
  step : Option Rat := none
  deriving DecidableEq

/-- A schema label (src/labels/label-manager.ts, `Label`). -/
structure Label where
  labelId : String
  name_en : String := ""
  name_fr : String := ""
  type : LabelType
  required : Bool
  placeholder : Option String := none
  constraints : Option Constraints := none
  options : Option (List String) := none
  deriving DecidableEq

/-- `value === null || value === undefined || value === ""` as tested by the
required-field check of `validateField` (src/utils/event-packer.ts:120-123).
`none` models an `undefined` lookup. -/
def isEmptyValue : Option FieldValue → Bool
  | none => true
  | some FieldValue.vNull => true
  | some (FieldValue.vStr "") => true
  | _ => false

/-- `validateNumberField` (src/utils/event-packer.ts:149-172): a non-number
value is rejected; otherwise the `min` check runs before the `max` check. -/
def validateNumberField (value : FieldValue) (label : Label) : Option String :=
  match value with
  | FieldValue.vNum n =>
      match label.constraints with
      | none => none
      | some c =>
          match c.min, c.max with
          | some mi, some ma =>
              if n < mi then some ("Must be at least " ++ toString mi)
              else if n > ma then some ("Must be at most " ++ toString ma)
              else none
          | some mi, none =>
              if n < mi then some ("Must be at least " ++ toString mi) else none
          | none, some ma =>
              if n > ma then some ("Must be at most " ++ toString ma) else none
          | none, none => none
  | _ => some "Must be a number"

/-- `validateTextField` (src/utils/event-packer.ts:177-191): a non-string
value is rejected; otherwise the optional `maxLength` bound is checked. -/
def validateTextField (value : FieldValue) (label : Label) : Option String :=
  match value with
  | FieldValue.vStr s =>
      match label.constraints.bind Constraints.maxLength with
      | some ml =>
          if (s.length : Rat) > ml then
            some ("Must be at most " ++ toString ml ++ " characters")
          else none
      | none => none
  | _ => some "Must be text"

/-- `validateField` (src/utils/event-packer.ts:118-144): required check,
then skip when the value is `null` or `undefined` (but not `""`), then the
type-specific checks for `number` and `text` labels. -/
def validateField (value : Option FieldValue) (label : Label) : Option String :=
  if label.required && isEmptyValue value then
    some (label.labelId ++ " is required")
  else
    match value with
    | none => none
    | some FieldValue.vNull => none
    | some v =>
        match label.type with
        | LabelType.number => validateNumberField v label
        | LabelType.text => validateTextField v label
        | _ => none

/-- Upsert into a JS record modelled as an association list:
`errors[key] = msg` overwrites an existing entry, else appends. -/
def recordSet (r : List (String × String)) (key msg : String) :
    List (String × String) :=
  if r.any (fun p => p.1 = key) then
    r.map (fun p => if p.1 = key then (key, msg) else p)
  else
    r ++ [(key, msg)]

/-- The result shape of `validateFormData`. -/
structure ValidationResult where
  isValid : Bool
  errors : List (String × String)
  deriving DecidableEq

/-- `validateFormData` (src/utils/event-packer.ts:196-213): collect the
per-label errors into a record keyed by `labelId`; `isValid` is the
emptiness of that record. The form data is the lookup function of the JS
record `formData` (`none` = property absent / `undefined`). -/
def validateFormData (formData : String → Option FieldValue)
    (labels : List Label) : ValidationResult :=
  let errors := labels.foldl
    (fun errs label =>
      match validateField (formData label.labelId) label with
      | some e => recordSet errs label.labelId e
      | none => errs)
    []
  { isValid := errors.isEmpty, errors := errors }

/-- The `min` constraint of a label, `label.constraints?.min`. -/
def constraintMin (label : Label) : Option Rat :=
  label.constraints.bind Constraints.min

/-- The `max` constraint of a label, `label.constraints?.max`. -/
def constraintMax (label : Label) : Option Rat :=
  label.constraints.bind Constraints.max

/-- The `maxLength` constraint of a label, `label.constraints?.maxLength`. -/
def constraintMaxLength (label : Label) : Option Rat :=
  label.constraints.bind Constraints.maxLength

/-- Logical per-field reading of what `validateNumberField` accepts:
the value is a number and lies within the inclusive bounds. -/
def numberOK (v : FieldValue) (label : Label) : Prop :=
  ∃ n, v = FieldValue.vNum n ∧
    (∀ mi, constraintMin label = some mi → mi ≤ n) ∧
    (∀ ma, constraintMax label = some ma → n ≤ ma)

/-- Logical per-field reading of what `validateTextField` accepts:
the value is a string of length at most `maxLength` (when present). -/
def textOK (v : FieldValue) (label : Label) : Prop :=
  ∃ s, v = FieldValue.vStr s ∧
    (∀ ml, constraintMaxLength label = some ml → (s.length : Rat) ≤ ml)

/-- Logical per-field reading of the checks `validateField` actually runs:
a required field must be non-null/non-undefined/non-`""`, and any
non-null, non-undefined value must pass the number check for number-typed
labels and the text check for text-typed labels. -/
def fieldOK (value : Option FieldValue) (label : Label) : Prop :=
  (label.required = true → isEmptyValue value = false) ∧
  (∀ v, value = some v → v ≠ FieldValue.vNull →
    (label.type = LabelType.number → numberOK v label) ∧
    (label.type = LabelType.text → textOK v label))

/-- The value-family compatibility relation of the spec:
number | number, boolean | boolean, and string-valued families
(text, enum, date, media) | string. -/
def familyMatches (v : FieldValue) (t : LabelType) : Prop :=
  match t with
  | LabelType.number => ∃ n, v = FieldValue.vNum n
  | LabelType.boolean => ∃ b, v = FieldValue.vBool b
  | _ => ∃ s, v = FieldValue.vStr s

/-- The validity criterion exactly as claim C2 words it: every required
field has a non-empty value of the correct family, and every numeric
min/max and text maxLength constraint is satisfied (bounds inclusive). -/
def claimC2Valid (formData : String → Option FieldValue)
    (labels : List Label) : Prop :=
  ∀ label ∈ labels,
    (label.required = true →
      isEmptyValue (formData label.labelId) = false ∧
      ∀ v, formData label.labelId = some v → familyMatches v label.type) ∧
    (∀ v, formData label.labelId = some v →
      (∀ n, v = FieldValue.vNum n →
        (∀ mi, constraintMin label = some mi → mi ≤ n) ∧
        (∀ ma, constraintMax label = some ma → n ≤ ma)) ∧
      (∀ s, v = FieldValue.vStr s →
        ∀ ml, constraintMaxLength label = some ml → (s.length : Rat) ≤ ml))

/-- Concrete input refuting claim C2 as stated: a required boolean-typed
label supplied with a string value. -/
def cexLabelC2 : Label :=
  { labelId := "b", type := LabelType.boolean, required := true }

/-- The value map of the C2 counterexample. -/
def cexFormC2 : String → Option FieldValue :=
  fun _ => some (FieldValue.vStr "x")

/-- Concrete input refuting claim C3 as stated: a non-required
number-typed label supplied with the empty string. -/
def cexLabelC3 : Label :=
  { labelId := "n", type := LabelType.number, required := false }

/-- Concrete label used to witness the amended C3 theorem. -/
def wLabelC3 : Label :=
  { labelId := "t", type := LabelType.text, required := false,
    constraints := some { maxLength := some 5 } }


/-! ### Proof-of-work (src/crypto/pow.ts)

`solvePow` hashes with `sha256` from the external `js-sha256` library;
that library is not part of this repository, so SHA-256 is modelled
below from its specification (FIPS 180-4), producing the lowercase hex
digest `js-sha256` returns. Strings are modelled as `List Char` and byte
strings as `List Nat` (each entry < 256).
-/

/-- Truncation to a 32-bit word. -/
def w32 (x : Nat) : Nat := x % 4294967296

/-- 32-bit right rotation. -/
def rotr32 (n x : Nat) : Nat := w32 ((x >>> n) ||| (x <<< (32 - n)))

/-- SHA-256 big sigma-0. -/
def bigSigma0 (x : Nat) : Nat := rotr32 2 x ^^^ rotr32 13 x ^^^ rotr32 22 x

/-- SHA-256 big sigma-1. -/
def bigSigma1 (x : Nat) : Nat := rotr32 6 x ^^^ rotr32 11 x ^^^ rotr32 25 x

/-- SHA-256 small sigma-0. -/
def smallSigma0 (x : Nat) : Nat := rotr32 7 x ^^^ rotr32 18 x ^^^ (x >>> 3)

/-- SHA-256 small sigma-1. -/
def smallSigma1 (x : Nat) : Nat := rotr32 17 x ^^^ rotr32 19 x ^^^ (x >>> 10)

/-- SHA-256 choose function (the complement is taken within 32 bits). -/
def chFn (x y z : Nat) : Nat := (x &&& y) ^^^ ((x ^^^ 4294967295) &&& z)

/-- SHA-256 majority function. -/
def majFn (x y z : Nat) : Nat := (x &&& y) ^^^ (x &&& z) ^^^ (y &&& z)

/-- The 64 SHA-256 round constants. -/
def sha256K : List Nat :=
  [1116352408,
   1899447441,
   3049323471,
   3921009573,
   961987163,
   1508970993,
   2453635748,
   2870763221,
   3624381080,
   310598401,
   607225278,
   1426881987,
   1925078388,
   2162078206,
   2614888103,
   3248222580,
   3835390401,
   4022224774,
   264347078,
   604807628,
   770255983,
   1249150122,
   1555081692,
   1996064986,
   2554220882,
   2821834349,
   2952996808,
   3210313671,
   3336571891,
   3584528711,
   113926993,
   338241895,
   666307205,
   773529912,
   1294757372,
   1396182291,
   1695183700,
   1986661051,
   2177026350,
   2456956037,
   2730485921,
   2820302411,
   3259730800,
   3345764771,
   3516065817,
   3600352804,
   4094571909,
   275423344,
   430227734,
   506948616,
   659060556,
   883997877,
   958139571,
   1322822218,
   1537002063,
   1747873779,
   1955562222,
   2024104815,
   2227730452,
   2361852424,
   2428436474,
   2756734187,
   3204031479,
   3329325298]

/-- The initial SHA-256 hash state. -/
def sha256Init : List Nat :=
  [1779033703, 3144134277, 1013904242, 2773480762,
   1359893119, 2600822924, 528734635, 1541459225]

/-- Big-endian byte decomposition of a value into `k` bytes. -/
def bytesBE : Nat → Nat → List Nat
  | 0, _ => []
  | k + 1, v => bytesBE k (v / 256) ++ [v % 256]

/-- SHA-256 message padding: append `0x80`, zero bytes up to 56 mod 64,
then the bit length as an 8-byte big-endian value. -/
def sha256Pad (msg : List Nat) : List Nat :=
  msg ++ [128] ++ List.replicate ((120 - ((msg.length + 1) % 64)) % 64) 0
    ++ bytesBE 8 (msg.length * 8)

/-- Big-endian packing of bytes into 32-bit words. -/
def bytesToWords : List Nat → List Nat
  | a :: b :: c :: d :: rest =>
      (a * 16777216 + b * 65536 + c * 256 + d) :: bytesToWords rest
  | _ => []

/-- Splitting a word list into 16-word blocks. -/
def wordsToBlocks : List Nat → List (List Nat)
  | w0 :: w1 :: w2 :: w3 :: w4 :: w5 :: w6 :: w7 ::
    w8 :: w9 :: w10 :: w11 :: w12 :: w13 :: w14 :: w15 :: rest =>
      [w0, w1, w2, w3, w4, w5, w6, w7,
       w8, w9, w10, w11, w12, w13, w14, w15] :: wordsToBlocks rest
  | _ => []

/-- One step of the message-schedule extension. -/
def scheduleStep (ws : List Nat) (_i : Nat) : List Nat :=
  ws ++ [w32 (smallSigma1 (ws.getD (ws.length - 2) 0) +
    ws.getD (ws.length - 7) 0 +
    smallSigma0 (ws.getD (ws.length - 15) 0) +
    ws.getD (ws.length - 16) 0)]

/-- The 64-entry message schedule of a block. -/
def schedule (block : List Nat) : List Nat :=
  (List.range 48).foldl scheduleStep block

/-- One SHA-256 compression round on the 8-word working state. -/
def compressStep (st : List Nat) (kw : Nat × Nat) : List Nat :=
  match st with
  | [a, b, c, d, e, f, g, h] =>
      let t1 := w32 (h + bigSigma1 e + chFn e f g + kw.1 + kw.2)
      let t2 := w32 (bigSigma0 a + majFn a b c)
      [w32 (t1 + t2), a, b, c, w32 (d + t1), e, f, g]
  | _ => st

/-- SHA-256 compression of one block into the hash state. -/
def compressBlock (hs : List Nat) (block : List Nat) : List Nat :=
  let st := ((sha256K.zip (schedule block)).foldl compressStep hs)
  (hs.zip st).map (fun p => w32 (p.1 + p.2))

/-- The eight 32-bit words of the SHA-256 digest of a byte string. -/
def sha256Words (msg : List Nat) : List Nat :=
  (wordsToBlocks (bytesToWords (sha256Pad msg))).foldl compressBlock sha256Init

/-- Lowercase hex digit of a nibble. -/
def hexDigitChar (n : Nat) : Char :=
  List.getD ("0123456789abcdef".toList) n '0'

/-- The eight lowercase hex digits of a 32-bit word, most significant
nibble first. -/
def wordToHex (v : Nat) : List Char :=
  [hexDigitChar (v / 268435456 % 16), hexDigitChar (v / 16777216 % 16),
   hexDigitChar (v / 1048576 % 16), hexDigitChar (v / 65536 % 16),
   hexDigitChar (v / 4096 % 16), hexDigitChar (v / 256 % 16),
   hexDigitChar (v / 16 % 16), hexDigitChar (v % 16)]

/-- Modelled from the spec: `sha256` of the external `js-sha256` library,
which is not repository code - the standard SHA-256 lowercase hex digest
of a byte string (FIPS 180-4). -/
def sha256 (msg : List Nat) : List Char :=
  (sha256Words msg).bind wordToHex

/-- The byte string of a JS string; the inputs hashed by `solvePow` are
ASCII, on which UTF-8 encoding is the code point itself. -/
def strBytes (s : List Char) : List Nat := s.map (fun c => c.toNat % 256)

/-- `PowChallenge` (src/crypto/pow.ts). The source field `prefix` is a
Lean keyword and is named `pfx` here. -/
structure PowChallenge where
  pfx : List Char
  difficulty : Nat
  deriving DecidableEq

/-- The string hashed for a nonce: `prefix ++ ":" ++ nonce` with the
nonce printed in decimal. -/
def powData (c : PowChallenge) (nonce : Nat) : List Char :=
  c.pfx ++ [':'] ++ Nat.toDigits 10 nonce

/-- The hex digest tested for a nonce, `sha256(data)`. -/
def powHash (c : PowChallenge) (nonce : Nat) : List Char :=
  sha256 (strBytes (powData c nonce))

/-- The target `"0".repeat(difficulty)` of a challenge. -/
def powTarget (c : PowChallenge) : List Char :=
  List.replicate c.difficulty '0'

/-- The loop of `solvePow` (src/crypto/pow.ts:24-39), indexed by fuel
because the source loop is unbounded (`while (true)`): try the current
nonce, return it when the hash starts with the target, else increment. -/
def solvePowAux (c : PowChallenge) : Nat → Nat → Option Nat
  | 0, _ => none
  | fuel + 1, nonce =>
      if (powTarget c).isPrefixOf (powHash c nonce) then some nonce
      else solvePowAux c fuel (nonce + 1)

/-- `solvePow` (src/crypto/pow.ts:24-39): the counter starts at 0. -/
def solvePow (fuel : Nat) (c : PowChallenge) : Option Nat :=
  solvePowAux c fuel 0

/-- The number of leading `'0'` hex digits of a digest. -/
def leadingZeroHexDigits (l : List Char) : Nat :=
  (l.takeWhile (fun ch => ch == '0')).length

/-- Concrete challenge used to witness the C1 theorem. -/
def wChallengeC1 : PowChallenge :=
  { pfx := ['t', 'e', 's', 't'], difficulty := 0 }


/-! ### Event package types and builder (src/types/event.ts, src/utils/event-packer.ts)

JS strings holding base64 or MIME data are modelled as `List Char`;
byte arrays as `List Nat` (entries < 256); `Date.now`/`toISOString` and
`uuidv4()` results are passed in as explicit parameters.
-/

/-- `EventAnnotation` (src/types/event.ts): `{labelId, value, timestamp}`. -/
structure EventAnnotation where
  labelId : String
  value : FieldValue
  timestamp : String
  deriving DecidableEq

/-- `EventMedia` (src/types/event.ts): the MIME `type` and base64 `data`
are character data; `size` and `lastModified` are copied from the file. -/
structure EventMedia where
  type : List Char
  data : List Char
  name : String
  size : Nat
  lastModified : Int
  deriving DecidableEq

/-- The `metadata` component of an `EventPackage`. -/
structure EventMetadata where
  createdAt : String
  createdBy : Option String
  source : String
  deriving DecidableEq

/-- `EventPackage` (src/types/event.ts). -/
structure EventPackage where
  id : String
  version : String
  annotations : List EventAnnotation
  media : Option EventMedia
  metadata : EventMetadata
  deriving DecidableEq

/-- Type guard `isEventAnnotation` (src/types/event.ts:83-91): checks the
three properties exist, which holds of every typed value by construction. -/
def isEventAnnotation (_a : EventAnnotation) : Bool := true

/-- Type guard `isEventPackage` (src/types/event.ts:94-110): its runtime
field-type and shape checks hold of every typed `EventPackage` by
construction, so only the `annotations.every(isEventAnnotation)` loop is
left with content. -/
def isEventPackage (pkg : EventPackage) : Bool :=
  pkg.annotations.all isEventAnnotation

/-- A browser `File` as seen by `createEventPackage`: MIME type, name,
size, last-modified stamp and content bytes. -/
structure MediaFile where
  type : List Char
  name : String
  size : Nat
  lastModified : Int
  bytes : List Nat
  deriving DecidableEq

/-- The base64 alphabet in index order. -/
def base64Chars : List Char :=
  ("ABCDEFGHIJKLMNOPQRSTUVWXYZ".toList) ++
  ("abcdefghijklmnopqrstuvwxyz".toList) ++
  ("0123456789+/".toList)

/-- The base64 character of a 6-bit value. -/
def b64EncodeChar (n : Nat) : Char := base64Chars.getD n 'A'

/-- The 6-bit value of a base64 character (`none` when invalid). -/
def b64DecodeChar (c : Char) : Option Nat :=
  base64Chars.findIdx? (fun d => d == c)

/-- `pat` occurs as a contiguous run inside the list (JS `includes`). -/
def containsSub (pat : List Char) : List Char → Bool
  | [] => pat.isEmpty
  | c :: rest => pat.isPrefixOf (c :: rest) || containsSub pat rest

/-- Standard base64 encoding of a byte string, with `=` padding. -/
def b64Encode : List Nat → List Char
  | [] => []
  | [b1] =>
      [b64EncodeChar (b1 / 4), b64EncodeChar (b1 % 4 * 16), '=', '=']
  | [b1, b2] =>
      [b64EncodeChar (b1 / 4), b64EncodeChar (b1 % 4 * 16 + b2 / 16),
       b64EncodeChar (b2 % 16 * 4), '=']
  | b1 :: b2 :: b3 :: rest =>
      b64EncodeChar (b1 / 4) :: b64EncodeChar (b1 % 4 * 16 + b2 / 16) ::
      b64EncodeChar (b2 % 16 * 4 + b3 / 64) :: b64EncodeChar (b3 % 64) ::
      b64Encode rest

/-- Decoding of a final 4-character base64 group, honouring `=` padding. -/
def b64DecodeTail (c1 c2 c3 c4 : Char) : Option (List Nat) :=
  if c4 == '=' then
    if c3 == '=' then
      match b64DecodeChar c1, b64DecodeChar c2 with
      | some n1, some n2 => some [n1 * 4 + n2 / 16]
      | _, _ => none
    else
      match b64DecodeChar c1, b64DecodeChar c2, b64DecodeChar c3 with
      | some n1, some n2, some n3 =>
          some [n1 * 4 + n2 / 16, n2 % 16 * 16 + n3 / 4]
      | _, _, _ => none
  else
    match b64DecodeChar c1, b64DecodeChar c2, b64DecodeChar c3,
      b64DecodeChar c4 with
    | some n1, some n2, some n3, some n4 =>
        some [n1 * 4 + n2 / 16, n2 % 16 * 16 + n3 / 4, n3 % 4 * 64 + n4]
    | _, _, _, _ => none

/-- Modelled from the spec: the platform `atob`, as used by
`base64ToUint8Array` - decode 4-character groups into bytes, `=` padding
only in the final group, rejecting invalid characters and lengths
congruent to 1 mod 4 (`none` models the `InvalidCharacterError` throw). -/
def b64Decode : List Char → Option (List Nat)
  | [] => some []
  | [_] => none
  | [c1, c2] =>
      match b64DecodeChar c1, b64DecodeChar c2 with
      | some n1, some n2 => some [n1 * 4 + n2 / 16]
      | _, _ => none
  | [c1, c2, c3] =>
      match b64DecodeChar c1, b64DecodeChar c2, b64DecodeChar c3 with
      | some n1, some n2, some n3 =>
          some [n1 * 4 + n2 / 16, n2 % 16 * 16 + n3 / 4]
      | _, _, _ => none
  | [c1, c2, c3, c4] => b64DecodeTail c1 c2 c3 c4
  | c1 :: c2 :: c3 :: c4 :: c5 :: rest =>
      match b64DecodeChar c1, b64DecodeChar c2, b64DecodeChar c3,
        b64DecodeChar c4, b64Decode (c5 :: rest) with
      | some n1, some n2, some n3, some n4, some bs =>
          some ((n1 * 4 + n2 / 16) :: (n2 % 16 * 16 + n3 / 4) ::
            (n3 % 4 * 64 + n4) :: bs)
      | _, _, _, _, _ => none

/-- Modelled from the spec: `fileToBase64` (event-packer.ts:14-28) reads
the file through the platform `FileReader.readAsDataURL`, which resolves
with the data URL `data:<mime>;base64,<base64 of the bytes>`. -/
def fileToBase64 (file : MediaFile) : List Char :=
  "data:".toList ++ file.type ++ ";base64,".toList ++ b64Encode file.bytes

/-- The options object of `createEventPackage`. -/
structure PackageOptions where
  createdBy : Option String := none
  source : Option String := none
  deriving DecidableEq

/-- `createEventPackage` (src/utils/event-packer.ts:34-113). `now` is the
single `new Date().toISOString()` taken at entry and `freshId` the
`uuidv4()` result. One annotation is mapped per label with the looked-up
value (`?? null`); the runtime `typeof` check rejects only values outside
`string | number | boolean | null`, which the typed `FieldValue` cannot
represent, so that throw is unreachable here; a separate `createdAt`
annotation is then pushed; media, when present, is embedded as a data
URL; the final `isEventPackage` guard failure throws. -/
def createEventPackage (now freshId : String)
    (formData : String → Option FieldValue) (labels : List Label)
    (mediaFile : Option MediaFile) (options : PackageOptions) :
    Except String EventPackage :=
  let annotations :=
    labels.map (fun label =>
      { labelId := label.labelId,
        value := (formData label.labelId).getD FieldValue.vNull,
        timestamp := now }) ++
    [{ labelId := "createdAt", value := FieldValue.vStr now,
       timestamp := now }]
  let media := mediaFile.map (fun f =>
    { type := f.type, data := fileToBase64 f, name := f.name,
      size := f.size, lastModified := f.lastModified })
  let eventPackage : EventPackage :=
    { id := freshId, version := "1.0.0", annotations := annotations,
      media := media,
      metadata :=
        { createdAt := now, createdBy := options.createdBy,
          source := options.source.getD "web" } }
  if isEventPackage eventPackage then Except.ok eventPackage
  else Except.error "Failed to create valid event package"

/-! ### Archive exporter (src/utils/zip-exporter.ts)

`JSZip` entry contents are modelled structurally: `JSON.stringify` of
the metadata/annotation objects is modelled as the structured value
itself (the platform serialization is faithful and invertible on these
shapes), and a binary entry holds its bytes. -/

/-- The second `split(sep)` field: the characters between the first and
second occurrence of `sep` (used for `split(",")[1]` and `split("/")[1]`). -/
def takeField (sep : Char) : List Char → List Char
  | [] => []
  | c :: rest => if c == sep then [] else c :: takeField sep rest

/-- Characters after the first `sep` up to the next `sep`. -/
def splitSecondField (sep : Char) : List Char → List Char
  | [] => []
  | c :: rest =>
      if c == sep then takeField sep rest else splitSecondField sep rest

/-- `getFileExtension` (zip-exporter.ts:17-20): `split("/")`, take the
second part when there is one, else `"bin"`. -/
def getFileExtension (mimeType : List Char) : List Char :=
  if mimeType.contains '/' then splitSecondField '/' mimeType
  else "bin".toList

/-- `base64ToUint8Array` (zip-exporter.ts:25-37): strip the data-URL
prefix when the string contains `"base64,"` (via `split(",")[1]`), then
`atob` into bytes; `none` models the decode throw. -/
def base64ToUint8Array (base64 : List Char) : Option (List Nat) :=
  let base64Data :=
    if containsSub ("base64,".toList) base64 then
      splitSecondField ',' base64
    else base64
  b64Decode base64Data

/-- The structured content of one archive entry. -/
inductive ZipContentValue where
  | jsonMeta (id : String) (version : String) (createdAt : String)
      (createdBy : Option String) (source : String)
      (annotationCount : Nat) (hasMedia : Bool)
  | jsonAnn (anns : List EventAnnotation)
  | bytes (b : List Nat)
  | jsonMediaMeta (originalName : String) (mimeType : List Char)
      (size : Nat) (lastModified : Option Int)
  deriving DecidableEq

/-- One named archive entry. -/
structure ZipEntry where
  name : List Char
  content : ZipContentValue
  deriving DecidableEq

/-- The options object of `exportEventPackageAsZip`. -/
structure ExportOptions where
  includeMedia : Bool := true
  includeMetadata : Bool := true
  deriving DecidableEq

/-- The `metadata.json` content of a package (zip-exporter.ts:59-67). -/
def packageMetaEntry (pkg : EventPackage) : ZipEntry :=
  { name := "metadata.json".toList,
    content := ZipContentValue.jsonMeta pkg.id pkg.version
      pkg.metadata.createdAt pkg.metadata.createdBy pkg.metadata.source
      pkg.annotations.length pkg.media.isSome }

/-- `exportEventPackageAsZip` (zip-exporter.ts:43-133): metadata entry
(optional), then the annotations entry, then - when requested and
present - the media bytes entry named `media.<ext>` and its
`media_metadata.json` sibling. A media decode failure is caught inside
the media block and swallowed (zip-exporter.ts:109-112), so the export
continues and returns the archive without the media entries; the
`lastModified` of the media metadata is `null` when the stamp is falsy
(0). -/
def exportEventPackageAsZip (pkg : EventPackage) (opts : ExportOptions) :
    List ZipEntry :=
  let base :=
    (if opts.includeMetadata then [packageMetaEntry pkg] else []) ++
    [{ name := "annotations.json".toList,
       content := ZipContentValue.jsonAnn pkg.annotations }]
  match opts.includeMedia, pkg.media with
  | true, some media =>
      match base64ToUint8Array media.data with
      | some fileData =>
          base ++
          [{ name := "media.".toList ++ getFileExtension media.type,
             content := ZipContentValue.bytes fileData }] ++
          (if opts.includeMetadata then
            [{ name := "media_metadata.json".toList,
               content := ZipContentValue.jsonMediaMeta media.name
                 media.type media.size
                 (if media.lastModified = 0 then none
                  else some media.lastModified) }]
          else [])
      | none => base
  | _, _ => base

/-- Lookup of an archive entry by name. -/
def zipLookup (entries : List ZipEntry) (name : List Char) :
    Option ZipContentValue :=
  (entries.find? (fun e => e.name == name)).map ZipEntry.content

/-- Concrete media with undecodable base64 data (`"!!!"`), refuting
claim C7 as stated. -/
def cexMediaC7 : EventMedia :=
  { type := "image/png".toList, data := "!!!".toList, name := "x.png",
    size := 3, lastModified := 1 }

/-- Concrete package carrying the undecodable media. -/
def cexPkgC7 : EventPackage :=
  { id := "id-7", version := "1.0.0",
    annotations :=
      [{ labelId := "createdAt", value := FieldValue.vStr "t7",
         timestamp := "t7" }],
    media := some cexMediaC7,
    metadata := { createdAt := "t7", createdBy := none, source := "web" } }

/-- Concrete label and value refuting claim C4 as stated: a string value
supplied for a number-typed label. -/
def cexLabelC4 : Label :=
  { labelId := "a", type := LabelType.number, required := true }

/-- The value map of the C4 counterexample. -/
def cexFormC4 : String → Option FieldValue :=
  fun _ => some (FieldValue.vStr "abc")

/-- Concrete media file used to witness the C8 round-trip theorem. -/
def wFileC8 : MediaFile :=
  { type := "image/png".toList, name := "p.png", size := 2,
    lastModified := 5, bytes := [200, 201] }


/-! ### Identity store (unnamed keystore module)

`storeKeyPair`/`retrieveKeyPair` import `./storageSetup` and
`./generateKey`, which are repository files not present under src/; the
store and the generator result are therefore modelled from the spec. -/

/-- The key material produced by one `generateKeyPair()` call. -/
structure KeyPairMaterial where
  publicKey : String
  privateKey : String
  deriving DecidableEq

/-- The record persisted in the `keys` store:
`{ value: { pub, priv, kid } }`. -/
structure StoredKeyRecord where
  pub : String
  priv : String
  kid : Nat
  deriving DecidableEq

/-- Modelled from the spec: the platform document store consumed by the
identity store (spec section 6) with at-most-one-row-per-key semantics
for the key pair - `insert` fails with a `"Key already exists"` error
when a record is already stored. -/
def storageInsert (st : Option StoredKeyRecord) (rec : StoredKeyRecord) :
    Except String (Option StoredKeyRecord) :=
  match st with
  | some _ => Except.error "Key already exists"
  | none => Except.ok (some rec)

/-- Modelled from the spec: `findOne("keys", kid)` returns the stored
record carrying that key id, if any. -/
def storageFindOne (st : Option StoredKeyRecord) (kid : Nat) :
    Option StoredKeyRecord :=
  match st with
  | some rec => if rec.kid = kid then some rec else none
  | none => none

/-- `storeKeyPair` (keystore module, lines 5-27): generate a fresh pair
(`gen`, passed in because generation is nondeterministic), insert it with
`kid` 1, and absorb an insert error whose message contains
`"Key already exists"`, leaving the store unchanged; any other error is
rethrown. -/
def storeKeyPair (gen : KeyPairMaterial) (st : Option StoredKeyRecord) :
    Except String (Option StoredKeyRecord) :=
  match storageInsert st
      { pub := gen.publicKey, priv := gen.privateKey, kid := 1 } with
  | Except.ok st2 => Except.ok st2
  | Except.error msg =>
      if containsSub ("Key already exists".toList) msg.toList then
        Except.ok st
      else Except.error msg

/-- `retrieveKeyPair` (keystore module, lines 30-44): `findOne` by key
id; `{publicKey: null, privateKey: null}` when absent. -/
def retrieveKeyPair (kid : Nat) (st : Option StoredKeyRecord) :
    Option String × Option String :=
  match storageFindOne st kid with
  | some rec => (some rec.pub, some rec.priv)
  | none => (none, none)

/-! ### Theorems about the validation engine -/


theorem validateNumberField_eq_none_iff (v : FieldValue) (label : Label) :
    validateNumberField v label = none ↔ numberOK v label := by
  cases v with
  | vStr s => simp [validateNumberField, numberOK]
  | vBool b => simp [validateNumberField, numberOK]
  | vNull => simp [validateNumberField, numberOK]
  | vNum n =>
      obtain ⟨lid, nen, nfr, lty, lreq, lph, lcon, lopt⟩ := label
      rcases lcon with _ | ⟨cml, cmnl, cpat, cmi, cma, cst⟩
      · simp [validateNumberField, numberOK, constraintMin, constraintMax]
      · rcases cmi with _ | mi <;> rcases cma with _ | ma <;>
          simp [validateNumberField, numberOK, constraintMin, constraintMax] <;>
          split_ifs with h1 h2
        all_goals
          first
          | exact (false_iff _).mpr fun hc => absurd h1 (not_lt_of_le hc.1)
          | exact (false_iff _).mpr fun hc => absurd h1 (not_lt_of_le hc)
          | exact (false_iff _).mpr fun hc => absurd h2 (not_lt_of_le hc.2)
          | exact (false_iff _).mpr fun hc => absurd h1 (not_lt_of_le hc.2)
          | exact iff_of_true rfl ⟨le_of_not_lt h1, le_of_not_lt h2⟩
          | exact iff_of_true rfl (le_of_not_lt h1)

theorem validateTextField_eq_none_iff (v : FieldValue) (label : Label) :
    validateTextField v label = none ↔ textOK v label := by
  cases v with
  | vNum n => simp [validateTextField, textOK]
  | vBool b => simp [validateTextField, textOK]
  | vNull => simp [validateTextField, textOK]
  | vStr s =>
      obtain ⟨lid, nen, nfr, lty, lreq, lph, lcon, lopt⟩ := label
      rcases lcon with _ | ⟨cml, cmnl, cpat, cmi, cma, cst⟩
      · simp [validateTextField, textOK, constraintMaxLength]
      · rcases cml with _ | ml <;>
          simp [validateTextField, textOK, constraintMaxLength] <;>
          split_ifs with h1
        all_goals
          first
          | exact (false_iff _).mpr fun hc => absurd h1 (not_lt_of_le hc)
          | exact iff_of_true rfl (le_of_not_lt h1)

theorem validateField_some_eq (v : FieldValue) (hv : v ≠ FieldValue.vNull)
    (label : Label) :
    validateField (some v) label =
      if label.required && isEmptyValue (some v) then
        some (label.labelId ++ " is required")
      else
        match label.type with
        | LabelType.number => validateNumberField v label
        | LabelType.text => validateTextField v label
        | _ => none := by
  cases v with
  | vNull => exact absurd rfl hv
  | vStr s => rfl
  | vNum n => rfl
  | vBool b => rfl

theorem validateField_eq_none_iff (value : Option FieldValue) (label : Label) :
    validateField value label = none ↔ fieldOK value label := by
  by_cases hreq : (label.required && isEmptyValue value) = true
  · rw [Bool.and_eq_true] at hreq
    obtain ⟨h1, h2⟩ := hreq
    unfold validateField
    rw [if_pos (by rw [h1, h2]; rfl)]
    unfold fieldOK
    constructor
    · intro h; simp at h
    · rintro ⟨hr, -⟩
      exact absurd h2 (by simp [hr h1])
  · have hemp : label.required = true → isEmptyValue value = false := by
      intro hr
      cases hval : isEmptyValue value with
      | false => rfl
      | true => exact absurd (by rw [hr, hval]; rfl) hreq
    cases value with
    | none =>
        unfold validateField
        rw [if_neg hreq]
        exact ⟨fun _ => ⟨hemp, fun v hv => by cases hv⟩, fun _ => rfl⟩
    | some v =>
        by_cases hv : v = FieldValue.vNull
        · subst hv
          unfold validateField
          rw [if_neg hreq]
          refine ⟨fun _ => ⟨hemp, fun w hw hne => ?_⟩, fun _ => rfl⟩
          rw [Option.some.injEq] at hw
          exact absurd hw.symm hne
        · rw [validateField_some_eq v hv, if_neg hreq]
          unfold fieldOK
          cases ht : label.type with
          | number =>
              constructor
              · intro h
                refine ⟨hemp, fun w hw hne => ?_⟩
                rw [Option.some.injEq] at hw
                subst hw
                exact ⟨fun _ => (validateNumberField_eq_none_iff _ _).mp h,
                  fun htx => by simp at htx⟩
              · rintro ⟨-, hok⟩
                exact (validateNumberField_eq_none_iff v label).mpr
                  ((hok v rfl hv).1 rfl)
          | text =>
              constructor
              · intro h
                refine ⟨hemp, fun w hw hne => ?_⟩
                rw [Option.some.injEq] at hw
                subst hw
                exact ⟨fun htn => by simp at htn,
                  fun _ => (validateTextField_eq_none_iff _ _).mp h⟩
              · rintro ⟨-, hok⟩
                exact (validateTextField_eq_none_iff v label).mpr
                  ((hok v rfl hv).2 rfl)
          | date =>
              refine ⟨fun _ => ⟨hemp, fun w hw hne => ?_⟩, fun _ => rfl⟩
              exact ⟨fun htn => by simp at htn, fun htx => by simp at htx⟩
          | enum =>
              refine ⟨fun _ => ⟨hemp, fun w hw hne => ?_⟩, fun _ => rfl⟩
              exact ⟨fun htn => by simp at htn, fun htx => by simp at htx⟩
          | media =>
              refine ⟨fun _ => ⟨hemp, fun w hw hne => ?_⟩, fun _ => rfl⟩
              exact ⟨fun htn => by simp at htn, fun htx => by simp at htx⟩
          | boolean =>
              refine ⟨fun _ => ⟨hemp, fun w hw hne => ?_⟩, fun _ => rfl⟩
              exact ⟨fun htn => by simp at htn, fun htx => by simp at htx⟩

theorem recordSet_ne_nil (r : List (String × String)) (key msg : String) :
    recordSet r key msg ≠ [] := by
  unfold recordSet
  split
  next h =>
    intro hmap
    rw [List.map_eq_nil] at hmap
    subst hmap
    simp at h
  next h => simp

theorem errors_foldl_eq_nil (formData : String → Option FieldValue)
    (labels : List Label) (errs : List (String × String)) :
    labels.foldl
      (fun errs label =>
        match validateField (formData label.labelId) label with
        | some e => recordSet errs label.labelId e
        | none => errs)
      errs = [] ↔
    errs = [] ∧
      ∀ label ∈ labels, validateField (formData label.labelId) label = none := by
  induction labels generalizing errs with
  | nil => simp
  | cons l ls ih =>
      simp only [List.foldl_cons]
      cases hv : validateField (formData l.labelId) l with
      | none =>
          rw [ih]
          simp [hv]
      | some e =>
          rw [ih]
          constructor
          · rintro ⟨hrec, -⟩
            exact absurd hrec (recordSet_ne_nil _ _ _)
          · rintro ⟨-, hall⟩
            have := hall l (by simp)
            rw [hv] at this
            simp at this

/-- C2 (amended): `validateFormData(V, L).isValid` is true iff every label
in `L` passes the checks the engine actually runs: a required field has a
non-null, non-undefined, non-empty-string value, and every non-null,
non-undefined value of a number-typed label is a number within the
inclusive `[min, max]` bounds while every such value of a text-typed label
is a string of length at most `maxLength`; labels of the other types get
no family or constraint check beyond the required check. `isValid` also
coincides with the errors map being empty. -/
theorem validateFormData_isValid_iff (formData : String → Option FieldValue)
    (labels : List Label) :
    ((validateFormData formData labels).isValid = true ↔
      ∀ label ∈ labels, fieldOK (formData label.labelId) label) ∧
    (validateFormData formData labels).isValid =
      (validateFormData formData labels).errors.isEmpty := by
  refine ⟨?_, rfl⟩
  unfold validateFormData
  simp only [List.isEmpty_iff]
  rw [errors_foldl_eq_nil]
  simp [validateField_eq_none_iff]

/-- Counterexample to claim C2 as stated: for a required boolean-typed
label supplied with the string value `"x"`, the engine reports the form
valid, yet the claim's criterion (a required field must hold a value of
the correct family) is violated. -/
theorem claimC2_counterexample :
    (validateFormData cexFormC2 [cexLabelC2]).isValid = true ∧
      ¬ claimC2Valid cexFormC2 [cexLabelC2] := by
  constructor
  · rfl
  · intro h
    obtain ⟨h1, -⟩ := h cexLabelC2 (by simp)
    obtain ⟨-, h2⟩ := h1 rfl
    obtain ⟨b, hb⟩ := h2 (FieldValue.vStr "x") rfl
    cases hb

/-- Counterexample to claim C3 as stated: the empty string supplied for a
non-required number-typed label does not skip the type check; it
produces the error `"Must be a number"`. -/
theorem claimC3_counterexample :
    validateField (some (FieldValue.vStr "")) cexLabelC3 =
      some "Must be a number" := rfl

/-- C3 (amended): for a non-required label, `null` and `undefined` values
skip all checks for every label type, while the empty string skips only
the required check: it still reaches the type-specific checks, producing
an error exactly when the label is number-typed (for a text-typed label
the empty string passes whenever the `maxLength` constraint, if present,
is nonnegative; labels of other types never check it). -/
theorem validateField_empty_nonrequired (label : Label)
    (h : label.required = false) :
    validateField none label = none ∧
    validateField (some FieldValue.vNull) label = none ∧
    (validateField (some (FieldValue.vStr "")) label = none ↔
      label.type ≠ LabelType.number ∧
      (label.type = LabelType.text →
        ∀ ml, constraintMaxLength label = some ml → 0 ≤ ml)) := by
  refine ⟨?_, ?_, ?_⟩
  · unfold validateField
    rw [if_neg (by simp [h])]
  · unfold validateField
    rw [if_neg (by simp [h])]
  · rw [validateField_some_eq _ (by intro hx; cases hx) label,
      if_neg (by simp [h])]
    cases ht : label.type with
    | number =>
        constructor
        · intro hx
          rw [show validateNumberField (FieldValue.vStr "") label =
              some "Must be a number" from rfl] at hx
          cases hx
        · rintro ⟨hne, -⟩
          exact absurd rfl hne
    | text =>
        rw [show (validateTextField (FieldValue.vStr "") label = none ↔
            textOK (FieldValue.vStr "") label) from
          validateTextField_eq_none_iff _ _]
        unfold textOK
        constructor
        · rintro ⟨s, hs, hml⟩
          injection hs with hs'
          refine ⟨by simp, fun _ ml hml' => ?_⟩
          have := hml ml hml'
          rw [← hs'] at this
          simpa using this
        · rintro ⟨-, hml⟩
          refine ⟨"", rfl, fun ml hml' => ?_⟩
          simpa using hml rfl ml hml'
    | date =>
        exact iff_of_true rfl ⟨by simp, fun hx => by simp at hx⟩
    | enum =>
        exact iff_of_true rfl ⟨by simp, fun hx => by simp at hx⟩
    | media =>
        exact iff_of_true rfl ⟨by simp, fun hx => by simp at hx⟩
    | boolean =>
        exact iff_of_true rfl ⟨by simp, fun hx => by simp at hx⟩

/-- Witness for the amended C3 theorem at a concrete non-required
text-typed label. -/
theorem validateField_empty_nonrequired_witness :
    wLabelC3.required = false ∧ validateField none wLabelC3 = none :=
  ⟨rfl, (validateField_empty_nonrequired wLabelC3 rfl).1⟩

/-! ### Theorems about the proof-of-work search -/

theorem replicate_zero_isPrefixOf_iff (d : Nat) (l : List Char) :
    (List.replicate d '0').isPrefixOf l = true ↔
      d ≤ leadingZeroHexDigits l := by
  induction d generalizing l with
  | zero => simp [List.isPrefixOf]
  | succ d ih =>
      cases l with
      | nil =>
          simp [List.replicate, List.isPrefixOf, leadingZeroHexDigits]
      | cons c cs =>
          by_cases hc : c = '0'
          · subst hc
            simp only [List.replicate, List.isPrefixOf, leadingZeroHexDigits,
              List.takeWhile]
            simp only [beq_self_eq_true, Bool.true_and, List.length_cons]
            rw [ih]
            unfold leadingZeroHexDigits
            omega
          · have hbeq : (('0' : Char) == c) = false := by
              rw [beq_eq_false_iff_ne]
              exact fun h => hc h.symm
            have hbeq' : ((c : Char) == '0') = false := by
              rw [beq_eq_false_iff_ne]
              exact hc
            simp only [List.replicate, List.isPrefixOf, leadingZeroHexDigits,
              List.takeWhile]
            rw [hbeq, hbeq']
            simp

theorem solvePowAux_sound (c : PowChallenge) :
    ∀ fuel start n, solvePowAux c fuel start = some n →
      start ≤ n ∧
      (powTarget c).isPrefixOf (powHash c n) = true ∧
      ∀ m, start ≤ m → m < n →
        (powTarget c).isPrefixOf (powHash c m) = false := by
  intro fuel
  induction fuel with
  | zero => intro start n h; cases h
  | succ fuel ih =>
      intro start n h
      simp only [solvePowAux] at h
      by_cases ht : (powTarget c).isPrefixOf (powHash c start) = true
      · rw [if_pos ht] at h
        injection h with hn
        subst hn
        exact ⟨Nat.le_refl _, ht,
          fun m hm1 hm2 => absurd hm1 (Nat.not_le_of_lt hm2)⟩
      · rw [if_neg ht] at h
        obtain ⟨h1, h2, h3⟩ := ih (start + 1) n h
        refine ⟨Nat.le_trans (Nat.le_succ start) h1, h2,
          fun m hm1 hm2 => ?_⟩
        rcases Nat.eq_or_lt_of_le hm1 with heq | hlt
        · cases hb : (powTarget c).isPrefixOf (powHash c m) with
          | false => rfl
          | true => exact absurd (heq ▸ hb) ht
        · exact h3 m hlt hm2

theorem solvePowAux_complete (c : PowChallenge) :
    ∀ fuel start,
      (∃ j, j < fuel ∧
        (powTarget c).isPrefixOf (powHash c (start + j)) = true) →
      ∃ m, solvePowAux c fuel start = some m := by
  intro fuel
  induction fuel with
  | zero =>
      rintro start ⟨j, hj, -⟩
      exact absurd hj (Nat.not_lt_zero j)
  | succ fuel ih =>
      rintro start ⟨j, hj, hp⟩
      by_cases ht : (powTarget c).isPrefixOf (powHash c start) = true
      · exact ⟨start, by simp only [solvePowAux]; rw [if_pos ht]⟩
      · cases j with
        | zero =>
            rw [Nat.add_zero] at hp
            exact absurd hp ht
        | succ j' =>
            obtain ⟨m, hm⟩ := ih (start + 1)
              ⟨j', by omega, by rw [show start + 1 + j' = start + (j' + 1)
                from by omega]; exact hp⟩
            exact ⟨m, by simp only [solvePowAux]; rw [if_neg ht]; exact hm⟩

/-- C1: `difficulty` is a `Nat` (so `0 ≤ difficulty` holds trivially) and
is assumed `≤ 20` as the claim states. Whenever the fuel-indexed model of
the unbounded `solvePow` loop returns a nonce, the sha256 hex digest of
`prefix ++ ":" ++ nonce` has at least `difficulty` leading zero hex
digits and no smaller nonce (counting up from 0) has that property; and
the search is exhaustive: if any nonce satisfies the property, `solvePow`
with enough fuel returns a satisfying nonce no larger than it. -/
theorem solvePow_spec (c : PowChallenge) (hd : c.difficulty ≤ 20) :
    (∀ fuel n, solvePow fuel c = some n →
      c.difficulty ≤ leadingZeroHexDigits (powHash c n) ∧
      ∀ m, m < n → ¬ c.difficulty ≤ leadingZeroHexDigits (powHash c m)) ∧
    (∀ n, c.difficulty ≤ leadingZeroHexDigits (powHash c n) →
      ∃ m, m ≤ n ∧ solvePow (n + 1) c = some m) := by
  constructor
  · intro fuel n h
    obtain ⟨-, h2, h3⟩ := solvePowAux_sound c fuel 0 n h
    rw [powTarget] at h2
    constructor
    · exact (replicate_zero_isPrefixOf_iff _ _).mp h2
    · intro m hm hcontra
      have hfalse := h3 m (Nat.zero_le m) hm
      rw [powTarget] at hfalse
      rw [(replicate_zero_isPrefixOf_iff _ _).mpr hcontra] at hfalse
      cases hfalse
  · intro n hn
    obtain ⟨m, hm⟩ := solvePowAux_complete c (n + 1) 0
      ⟨n, by omega, by
        rw [Nat.zero_add, powTarget]
        exact (replicate_zero_isPrefixOf_iff _ _).mpr hn⟩
    refine ⟨m, ?_, hm⟩
    obtain ⟨-, -, h3⟩ := solvePowAux_sound c (n + 1) 0 m hm
    by_contra hgt
    have hfalse := h3 n (Nat.zero_le n) (by omega)
    rw [powTarget] at hfalse
    rw [(replicate_zero_isPrefixOf_iff _ _).mpr hn] at hfalse
    cases hfalse

/-- Witness for the C1 theorem at a concrete challenge of difficulty 0:
the very first nonce, 0, satisfies the (empty) target, so one unit of
fuel suffices. -/
theorem solvePow_spec_witness :
    wChallengeC1.difficulty ≤ 20 ∧
      ∃ m, m ≤ 0 ∧ solvePow (0 + 1) wChallengeC1 = some m :=
  ⟨by decide,
    (solvePow_spec wChallengeC1 (by decide)).2 0 (Nat.zero_le _)⟩



/-! ### Theorems about the package builder -/

theorem isEventPackage_true (pkg : EventPackage) :
    isEventPackage pkg = true := by
  simp [isEventPackage, isEventAnnotation]

theorem createEventPackage_eq (now freshId : String)
    (formData : String → Option FieldValue) (labels : List Label)
    (mediaFile : Option MediaFile) (options : PackageOptions) :
    createEventPackage now freshId formData labels mediaFile options =
      Except.ok
        { id := freshId, version := "1.0.0",
          annotations :=
            labels.map (fun label =>
              { labelId := label.labelId,
                value := (formData label.labelId).getD FieldValue.vNull,
                timestamp := now }) ++
            [{ labelId := "createdAt", value := FieldValue.vStr now,
               timestamp := now }],
          media := mediaFile.map (fun f =>
            { type := f.type, data := fileToBase64 f, name := f.name,
              size := f.size, lastModified := f.lastModified }),
          metadata :=
            { createdAt := now, createdBy := options.createdBy,
              source := options.source.getD "web" } } := by
  simp [createEventPackage, isEventPackage_true]

/-- Counterexample to claim C4 as stated: a string value supplied for a
number-typed label is not rejected - the build succeeds and emits the
mismatched annotation verbatim. -/
theorem claimC4_counterexample :
    (createEventPackage "t0" "id0" cexFormC4 [cexLabelC4] none
        {}).toOption.map
        (fun pkg => pkg.annotations.map (fun a => (a.labelId, a.value))) =
      some [("a", FieldValue.vStr "abc"),
        ("createdAt", FieldValue.vStr "t0")] := rfl

/-- C4 (amended): `createEventPackage` performs no cross-check of a
value's runtime family against the label's declared `type`: the only
runtime check rejects values outside `string | number | boolean | null`
(unrepresentable in the typed model), so for every input the build
succeeds and each label's annotation carries the supplied value
verbatim, whatever its family. -/
theorem createEventPackage_no_family_check (now freshId : String)
    (formData : String → Option FieldValue) (labels : List Label)
    (mediaFile : Option MediaFile) (options : PackageOptions) :
    ∃ pkg,
      createEventPackage now freshId formData labels mediaFile options =
        Except.ok pkg ∧
      ∀ label ∈ labels,
        ({ labelId := label.labelId,
           value := (formData label.labelId).getD FieldValue.vNull,
           timestamp := now } : EventAnnotation) ∈ pkg.annotations := by
  refine ⟨_, createEventPackage_eq now freshId formData labels mediaFile
    options, ?_⟩
  intro label hl
  exact List.mem_append_left _ (List.mem_map_of_mem _ hl)

/-- Counterexample to claim C5 as stated: built over the empty label
snapshot, the package still contains one annotation, whose labelId
`"createdAt"` references no label of the snapshot. -/
theorem claimC5_counterexample :
    (createEventPackage "t0" "id0" (fun _ => none) [] none
        {}).toOption.map EventPackage.annotations =
      some [{ labelId := "createdAt", value := FieldValue.vStr "t0",
              timestamp := "t0" }] := rfl

/-- C5 (amended): the annotations of a successful build are exactly one
annotation per label of the snapshot, in order, each carrying that
label's labelId and looked-up value, followed by one extra annotation
with labelId `"createdAt"` holding the build timestamp - and nothing
else. -/
theorem createEventPackage_annotations_eq (now freshId : String)
    (formData : String → Option FieldValue) (labels : List Label)
    (mediaFile : Option MediaFile) (options : PackageOptions)
    (pkg : EventPackage)
    (h : createEventPackage now freshId formData labels mediaFile options =
      Except.ok pkg) :
    pkg.annotations =
      labels.map (fun label =>
        { labelId := label.labelId,
          value := (formData label.labelId).getD FieldValue.vNull,
          timestamp := now }) ++
      [{ labelId := "createdAt", value := FieldValue.vStr now,
         timestamp := now }] := by
  rw [createEventPackage_eq] at h
  cases h
  rfl

/-- Witness for the amended C5 theorem at the empty snapshot. -/
theorem createEventPackage_annotations_eq_witness :
    ∃ pkg,
      createEventPackage "t0" "id0" (fun _ => none) [] none {} =
        Except.ok pkg ∧
      pkg.annotations =
        [{ labelId := "createdAt", value := FieldValue.vStr "t0",
           timestamp := "t0" }] :=
  ⟨_, rfl, by
    exact (createEventPackage_annotations_eq "t0" "id0" (fun _ => none)
      [] none {} _ rfl).trans rfl⟩

/-- C6: in a successful build every annotation carries the build's
single shared timestamp, the package metadata's `createdAt` equals that
shared timestamp, the package id is the freshly generated uuid of the
build and the version is the fixed string `"1.0.0"`. -/
theorem createEventPackage_shared_timestamp (now freshId : String)
    (formData : String → Option FieldValue) (labels : List Label)
    (mediaFile : Option MediaFile) (options : PackageOptions)
    (pkg : EventPackage)
    (h : createEventPackage now freshId formData labels mediaFile options =
      Except.ok pkg) :
    (∀ a ∈ pkg.annotations, a.timestamp = now) ∧
    pkg.metadata.createdAt = now ∧ pkg.id = freshId ∧
    pkg.version = "1.0.0" := by
  rw [createEventPackage_eq] at h
  cases h
  refine ⟨?_, rfl, rfl, rfl⟩
  intro a ha
  simp only [List.mem_append, List.mem_map, List.mem_singleton] at ha
  rcases ha with ⟨label, -, rfl⟩ | rfl
  · rfl
  · rfl

/-- Witness for the C6 theorem at a concrete one-label build. -/
theorem createEventPackage_shared_timestamp_witness :
    ∃ pkg,
      createEventPackage "t6" "id6" cexFormC4 [cexLabelC4] none {} =
        Except.ok pkg ∧
      (∀ a ∈ pkg.annotations, a.timestamp = "t6") ∧
      pkg.metadata.createdAt = "t6" :=
  ⟨_, rfl, by
    have h := createEventPackage_shared_timestamp "t6" "id6" cexFormC4
      [cexLabelC4] none {} _ rfl
    exact ⟨h.1, h.2.1⟩⟩



/-! ### Theorems about base64 and the archive exporter -/

theorem b64DecodeChar_encodeChar : ∀ n < 64,
    b64DecodeChar (b64EncodeChar n) = some n := by decide

theorem b64EncodeChar_in_alphabet (n : Nat) :
    b64EncodeChar n ∈ base64Chars := by
  by_cases h : n < 64
  · revert h
    revert n
    decide
  · rw [b64EncodeChar, List.getD_eq_default _ _ (by
      simp only [base64Chars, List.length]
      omega)]
    decide

theorem b64Encode_ne_nil (b : Nat) (bs : List Nat) :
    b64Encode (b :: bs) ≠ [] := by
  cases bs with
  | nil => simp [b64Encode]
  | cons b2 bs2 =>
      cases bs2 with
      | nil => simp [b64Encode]
      | cons b3 bs3 => simp [b64Encode]

theorem b64Decode_cons4 (c1 c2 c3 c4 : Char) (t : List Char)
    (ht : t ≠ []) (n1 n2 n3 n4 : Nat) (bs : List Nat)
    (h1 : b64DecodeChar c1 = some n1) (h2 : b64DecodeChar c2 = some n2)
    (h3 : b64DecodeChar c3 = some n3) (h4 : b64DecodeChar c4 = some n4)
    (hrec : b64Decode t = some bs) :
    b64Decode (c1 :: c2 :: c3 :: c4 :: t) =
      some ((n1 * 4 + n2 / 16) :: (n2 % 16 * 16 + n3 / 4) ::
        (n3 % 4 * 64 + n4) :: bs) := by
  cases t with
  | nil => exact absurd rfl ht
  | cons c5 r => simp [b64Decode, h1, h2, h3, h4, hrec]

theorem b64_round : ∀ bs : List Nat, (∀ b ∈ bs, b < 256) →
    b64Decode (b64Encode bs) = some bs
  | [], _ => rfl
  | [b1], h => by
      have h1 : b1 < 256 := h b1 (by simp)
      simp only [b64Encode, b64Decode, b64DecodeTail, beq_self_eq_true,
        if_true]
      rw [b64DecodeChar_encodeChar _ (by omega),
        b64DecodeChar_encodeChar _ (by omega)]
      have e1 : b1 / 4 * 4 + b1 % 4 * 16 / 16 = b1 := by omega
      show some [b1 / 4 * 4 + b1 % 4 * 16 / 16] = some [b1]
      rw [e1]
  | [b1, b2], h => by
      have h1 : b1 < 256 := h b1 (by simp)
      have h2 : b2 < 256 := h b2 (by simp)
      have hq : (b64EncodeChar (b2 % 16 * 4) == '=') = false := by
        have := b64EncodeChar_in_alphabet (b2 % 16 * 4)
        rw [beq_eq_false_iff_ne]
        intro he
        rw [he] at this
        revert this
        decide
      simp only [b64Encode, b64Decode, b64DecodeTail, beq_self_eq_true,
        if_true, hq, Bool.false_eq_true, if_false]
      rw [b64DecodeChar_encodeChar _ (by omega),
        b64DecodeChar_encodeChar _ (by omega),
        b64DecodeChar_encodeChar _ (by omega)]
      have e1 : b1 / 4 * 4 + (b1 % 4 * 16 + b2 / 16) / 16 = b1 := by omega
      have e2 : (b1 % 4 * 16 + b2 / 16) % 16 * 16 + b2 % 16 * 4 / 4 = b2 := by
        omega
      show some [b1 / 4 * 4 + (b1 % 4 * 16 + b2 / 16) / 16,
        (b1 % 4 * 16 + b2 / 16) % 16 * 16 + b2 % 16 * 4 / 4] = some [b1, b2]
      rw [e1, e2]
  | b1 :: b2 :: b3 :: rest, h => by
      have h1 : b1 < 256 := h b1 (by simp)
      have h2 : b2 < 256 := h b2 (by simp)
      have h3 : b3 < 256 := h b3 (by simp)
      have ih := b64_round rest (fun b hb => h b (by simp [hb]))
      cases rest with
      | nil =>
          have hq : (b64EncodeChar (b3 % 64) == '=') = false := by
            have := b64EncodeChar_in_alphabet (b3 % 64)
            rw [beq_eq_false_iff_ne]
            intro he
            rw [he] at this
            revert this
            decide
          simp only [b64Encode, b64Decode, b64DecodeTail, hq,
            Bool.false_eq_true, if_false]
          rw [b64DecodeChar_encodeChar _ (by omega),
            b64DecodeChar_encodeChar _ (by omega),
            b64DecodeChar_encodeChar _ (by omega),
            b64DecodeChar_encodeChar _ (by omega)]
          have e1 : b1 / 4 * 4 + (b1 % 4 * 16 + b2 / 16) / 16 = b1 := by
            omega
          have e2 : (b1 % 4 * 16 + b2 / 16) % 16 * 16 +
              (b2 % 16 * 4 + b3 / 64) / 4 = b2 := by omega
          have e3 : (b2 % 16 * 4 + b3 / 64) % 4 * 64 + b3 % 64 = b3 := by
            omega
          show some [b1 / 4 * 4 + (b1 % 4 * 16 + b2 / 16) / 16,
            (b1 % 4 * 16 + b2 / 16) % 16 * 16 + (b2 % 16 * 4 + b3 / 64) / 4,
            (b2 % 16 * 4 + b3 / 64) % 4 * 64 + b3 % 64] = some [b1, b2, b3]
          rw [e1, e2, e3]
      | cons b4 rest4 =>
          rw [show b64Encode (b1 :: b2 :: b3 :: b4 :: rest4) =
            b64EncodeChar (b1 / 4) ::
            b64EncodeChar (b1 % 4 * 16 + b2 / 16) ::
            b64EncodeChar (b2 % 16 * 4 + b3 / 64) ::
            b64EncodeChar (b3 % 64) :: b64Encode (b4 :: rest4) from rfl]
          rw [b64Decode_cons4 _ _ _ _ _ (b64Encode_ne_nil b4 rest4) _ _ _ _ _
            (b64DecodeChar_encodeChar _ (by omega))
            (b64DecodeChar_encodeChar _ (by omega))
            (b64DecodeChar_encodeChar _ (by omega))
            (b64DecodeChar_encodeChar _ (by omega)) ih]
          have e1 : b1 / 4 * 4 + (b1 % 4 * 16 + b2 / 16) / 16 = b1 := by
            omega
          have e2 : (b1 % 4 * 16 + b2 / 16) % 16 * 16 +
              (b2 % 16 * 4 + b3 / 64) / 4 = b2 := by omega
          have e3 : (b2 % 16 * 4 + b3 / 64) % 4 * 64 + b3 % 64 = b3 := by
            omega
          rw [e1, e2, e3]



theorem isPrefixOf_append_self (p m : List Char) :
    p.isPrefixOf (p ++ m) = true := by
  induction p with
  | nil => cases m <;> rfl
  | cons c cs ih => simp [List.isPrefixOf, ih]

theorem containsSub_self_append (pat m : List Char) :
    containsSub pat (pat ++ m) = true := by
  cases pat with
  | nil => cases m <;> rfl
  | cons c cs =>
      have h := isPrefixOf_append_self (c :: cs) m
      simp only [List.cons_append] at h
      simp [containsSub, h]

theorem containsSub_append (l pat m : List Char) :
    containsSub pat (l ++ pat ++ m) = true := by
  induction l with
  | nil => simpa using containsSub_self_append pat m
  | cons c l ih =>
      rw [show (c :: l) ++ pat ++ m = c :: (l ++ pat ++ m) from by simp]
      generalize hx : l ++ pat ++ m = x at ih ⊢
      simp [containsSub, ih]

theorem takeField_no_sep (sep : Char) (l : List Char)
    (h : ∀ c ∈ l, (c == sep) = false) : takeField sep l = l := by
  induction l with
  | nil => rfl
  | cons c cs ih =>
      simp only [takeField, h c (by simp), Bool.false_eq_true, if_false]
      rw [ih (fun d hd => h d (by simp [hd]))]

theorem splitSecondField_append (sep : Char) (l m : List Char)
    (h : ∀ c ∈ l, (c == sep) = false) :
    splitSecondField sep (l ++ m) = splitSecondField sep m := by
  induction l with
  | nil => rfl
  | cons c cs ih =>
      simp only [List.cons_append, splitSecondField, h c (by simp),
        Bool.false_eq_true, if_false]
      exact ih (fun d hd => h d (by simp [hd]))

theorem splitSecondField_cons_sep (sep : Char) (m : List Char) :
    splitSecondField sep (sep :: m) = takeField sep m := by
  simp [splitSecondField]

theorem b64Encode_chars : ∀ bs : List Nat, ∀ c ∈ b64Encode bs,
    c ∈ base64Chars ∨ c = '='
  | [], c, hc => absurd hc (by simp [b64Encode])
  | [b1], c, hc => by
      simp only [b64Encode, List.mem_cons, List.not_mem_nil, or_false] at hc
      rcases hc with rfl | rfl | rfl | rfl
      · exact Or.inl (b64EncodeChar_in_alphabet _)
      · exact Or.inl (b64EncodeChar_in_alphabet _)
      · exact Or.inr rfl
      · exact Or.inr rfl
  | [b1, b2], c, hc => by
      simp only [b64Encode, List.mem_cons, List.not_mem_nil, or_false] at hc
      rcases hc with rfl | rfl | rfl | rfl
      · exact Or.inl (b64EncodeChar_in_alphabet _)
      · exact Or.inl (b64EncodeChar_in_alphabet _)
      · exact Or.inl (b64EncodeChar_in_alphabet _)
      · exact Or.inr rfl
  | b1 :: b2 :: b3 :: rest, c, hc => by
      simp only [b64Encode, List.mem_cons] at hc
      rcases hc with rfl | rfl | rfl | rfl | hrest
      · exact Or.inl (b64EncodeChar_in_alphabet _)
      · exact Or.inl (b64EncodeChar_in_alphabet _)
      · exact Or.inl (b64EncodeChar_in_alphabet _)
      · exact Or.inl (b64EncodeChar_in_alphabet _)
      · exact b64Encode_chars rest c hrest

theorem b64Encode_no_comma (bs : List Nat) :
    ∀ c ∈ b64Encode bs, (c == ',') = false := by
  intro c hc
  rcases b64Encode_chars bs c hc with h | rfl
  · rw [beq_eq_false_iff_ne]
    intro he
    rw [he] at h
    revert h
    decide
  · decide

theorem base64ToUint8Array_fileToBase64 (f : MediaFile)
    (hb : ∀ b ∈ f.bytes, b < 256) (hc : ',' ∉ f.type) :
    base64ToUint8Array (fileToBase64 f) = some f.bytes := by
  have hc' : ∀ c ∈ f.type, (c == ',') = false := fun c hcm =>
    beq_eq_false_iff_ne.mpr (fun he => hc (he ▸ hcm))
  have hsub : containsSub ("base64,".toList) (fileToBase64 f) = true := by
    have heq : fileToBase64 f =
        ("data:".toList ++ f.type ++ [';']) ++ "base64,".toList ++
          b64Encode f.bytes := by
      simp [fileToBase64, List.append_assoc]
    rw [heq, containsSub_append]
  have hsplit : splitSecondField ',' (fileToBase64 f) =
      b64Encode f.bytes := by
    have heq : fileToBase64 f =
        "data:".toList ++ (f.type ++ (";base64".toList ++
          (',' :: b64Encode f.bytes))) := by
      simp [fileToBase64, List.append_assoc]
    rw [heq,
      splitSecondField_append ',' ("data:".toList) _ (by decide),
      splitSecondField_append ',' f.type _ hc',
      splitSecondField_append ',' (";base64".toList) _ (by decide),
      splitSecondField_cons_sep,
      takeField_no_sep ',' _ (b64Encode_no_comma f.bytes)]
  simp only [base64ToUint8Array, hsub, if_true, hsplit]
  exact b64_round f.bytes hb



theorem zipLookup_cons_ne (e : ZipEntry) (rest : List ZipEntry)
    (name : List Char) (h : (e.name == name) = false) :
    zipLookup (e :: rest) name = zipLookup rest name := by
  simp [zipLookup, List.find?, h]

theorem zipLookup_cons_eq (e : ZipEntry) (rest : List ZipEntry)
    (name : List Char) (h : (e.name == name) = true) :
    zipLookup (e :: rest) name = some e.content := by
  simp [zipLookup, List.find?, h]

theorem beq_append_false_of_take (a p x : List Char)
    (h : (a.take p.length == p) = false) : (a == p ++ x) = false := by
  rw [beq_eq_false_iff_ne] at h ⊢
  intro he
  apply h
  rw [he, List.take_left]

theorem append_beq_false_of_take (p x a : List Char)
    (h : (p == a.take p.length) = false) : (p ++ x == a) = false := by
  rw [beq_eq_false_iff_ne] at h ⊢
  intro he
  apply h
  rw [← he, List.take_left]

theorem exportZip_with_media (pkg : EventPackage) (media : EventMedia)
    (fileBytes : List Nat) (hm : pkg.media = some media)
    (hd : base64ToUint8Array media.data = some fileBytes) :
    exportEventPackageAsZip pkg {} =
      [packageMetaEntry pkg,
       { name := "annotations.json".toList,
         content := ZipContentValue.jsonAnn pkg.annotations },
       { name := "media.".toList ++ getFileExtension media.type,
         content := ZipContentValue.bytes fileBytes },
       { name := "media_metadata.json".toList,
         content := ZipContentValue.jsonMediaMeta media.name media.type
           media.size
           (if media.lastModified = 0 then none
            else some media.lastModified) }] := by
  simp [exportEventPackageAsZip, hm, hd]

/-- C10: for every package and every combination of the export options,
the archive contains the `annotations.json` entry holding the package's
serialized annotation list; suppressing metadata or media never
suppresses it. -/
theorem exportZip_always_has_annotations (pkg : EventPackage)
    (opts : ExportOptions) :
    zipLookup (exportEventPackageAsZip pkg opts)
        ("annotations.json".toList) =
      some (ZipContentValue.jsonAnn pkg.annotations) := by
  rcases opts with ⟨im, imd⟩
  cases hm : pkg.media with
  | none =>
      cases im <;> cases imd <;>
        simp only [exportEventPackageAsZip, hm] <;> rfl
  | some media =>
      cases im with
      | false =>
          cases imd <;> simp only [exportEventPackageAsZip, hm] <;> rfl
      | true =>
          cases hd : base64ToUint8Array media.data with
          | none =>
              cases imd <;>
                simp only [exportEventPackageAsZip, hm, hd] <;> rfl
          | some fileBytes =>
              cases imd <;>
                simp only [exportEventPackageAsZip, hm, hd] <;> rfl

/-- Counterexample to claim C7 as stated: for a package whose media data
is not decodable base64 (`"!!!"`), the export does not abort - it
returns a partial archive holding the metadata and annotations entries
and no media entry. -/
theorem claimC7_counterexample :
    exportEventPackageAsZip cexPkgC7 {} =
      [packageMetaEntry cexPkgC7,
       { name := "annotations.json".toList,
         content := ZipContentValue.jsonAnn cexPkgC7.annotations }] ∧
    zipLookup (exportEventPackageAsZip cexPkgC7 {})
        ("media.png".toList) = none :=
  ⟨rfl, rfl⟩

/-- C7 (amended): a failure while processing the media entry (e.g.
undecodable base64 media data) is caught and swallowed, so the export
completes and returns the archive without the media and media-metadata
entries: exactly the optional metadata entry followed by the
annotations entry. -/
theorem exportZip_media_failure_swallowed (pkg : EventPackage)
    (opts : ExportOptions) (media : EventMedia)
    (hm : pkg.media = some media)
    (hfail : base64ToUint8Array media.data = none) :
    exportEventPackageAsZip pkg opts =
      (if opts.includeMetadata then [packageMetaEntry pkg] else []) ++
      [{ name := "annotations.json".toList,
         content := ZipContentValue.jsonAnn pkg.annotations }] := by
  cases him : opts.includeMedia with
  | false => simp [exportEventPackageAsZip, hm, him]
  | true => simp [exportEventPackageAsZip, hm, him, hfail]

/-- Witness for the amended C7 theorem at the concrete package with
undecodable media data. -/
theorem exportZip_media_failure_swallowed_witness :
    cexPkgC7.media = some cexMediaC7 ∧
    exportEventPackageAsZip cexPkgC7 {} =
      [packageMetaEntry cexPkgC7,
       { name := "annotations.json".toList,
         content := ZipContentValue.jsonAnn cexPkgC7.annotations }] :=
  ⟨rfl, by
    have h := exportZip_media_failure_swallowed cexPkgC7 {} cexMediaC7
      rfl rfl
    simpa using h⟩

theorem zipLookup_archive4 (m1 a2 m3 m4 : ZipContentValue)
    (ext : List Char) :
    (zipLookup [{ name := "metadata.json".toList, content := m1 },
        { name := "annotations.json".toList, content := a2 },
        { name := "media.".toList ++ ext, content := m3 },
        { name := "media_metadata.json".toList, content := m4 }]
        ("annotations.json".toList) = some a2) ∧
    (zipLookup [{ name := "metadata.json".toList, content := m1 },
        { name := "annotations.json".toList, content := a2 },
        { name := "media.".toList ++ ext, content := m3 },
        { name := "media_metadata.json".toList, content := m4 }]
        ("media.".toList ++ ext) = some m3) ∧
    (zipLookup [{ name := "metadata.json".toList, content := m1 },
        { name := "annotations.json".toList, content := a2 },
        { name := "media.".toList ++ ext, content := m3 },
        { name := "media_metadata.json".toList, content := m4 }]
        ("media_metadata.json".toList) = some m4) := by
  refine ⟨?_, ?_, ?_⟩
  · rw [zipLookup_cons_ne _ _ _ (by
        show ("metadata.json".toList == "annotations.json".toList) = false
        decide),
      zipLookup_cons_eq _ _ _ (by
        show ("annotations.json".toList == "annotations.json".toList) = true
        decide)]
  · rw [zipLookup_cons_ne _ _ _
        (beq_append_false_of_take "metadata.json".toList "media.".toList
          ext (by decide)),
      zipLookup_cons_ne _ _ _
        (beq_append_false_of_take "annotations.json".toList "media.".toList
          ext (by decide)),
      zipLookup_cons_eq _ _ _ (beq_self_eq_true _)]
  · rw [zipLookup_cons_ne _ _ _ (by
        show ("metadata.json".toList == "media_metadata.json".toList) = false
        decide),
      zipLookup_cons_ne _ _ _ (by
        show ("annotations.json".toList ==
          "media_metadata.json".toList) = false
        decide),
      zipLookup_cons_ne _ _ _
        (append_beq_false_of_take "media.".toList ext
          "media_metadata.json".toList (by decide)),
      zipLookup_cons_eq _ _ _ (by
        show ("media_metadata.json".toList ==
          "media_metadata.json".toList) = true
        decide)]

/-- C8: exporting a successfully built package (with media) and
unpacking the archive reproduces the same annotation list from the
`annotations.json` entry, a media entry of identical bytes (hence
identical byte size) under the stable name `media.<ext>`, and the
original MIME type and size in `media_metadata.json`. -/
theorem export_build_roundTrip (now freshId : String)
    (formData : String → Option FieldValue) (labels : List Label)
    (f : MediaFile) (options : PackageOptions) (pkg : EventPackage)
    (h : createEventPackage now freshId formData labels (some f) options =
      Except.ok pkg)
    (hb : ∀ b ∈ f.bytes, b < 256) (hc : ',' ∉ f.type) :
    zipLookup (exportEventPackageAsZip pkg {})
        ("annotations.json".toList) =
      some (ZipContentValue.jsonAnn pkg.annotations) ∧
    zipLookup (exportEventPackageAsZip pkg {})
        ("media.".toList ++ getFileExtension f.type) =
      some (ZipContentValue.bytes f.bytes) ∧
    zipLookup (exportEventPackageAsZip pkg {})
        ("media_metadata.json".toList) =
      some (ZipContentValue.jsonMediaMeta f.name f.type f.size
        (if f.lastModified = 0 then none else some f.lastModified)) := by
  rw [createEventPackage_eq] at h
  cases h
  have hdec : base64ToUint8Array (fileToBase64 f) = some f.bytes :=
    base64ToUint8Array_fileToBase64 f hb hc
  rw [exportZip_with_media _
    { type := f.type, data := fileToBase64 f, name := f.name,
      size := f.size, lastModified := f.lastModified } f.bytes rfl hdec]
  exact zipLookup_archive4 _ _ _ _ (getFileExtension f.type)

/-- Witness for the C8 round-trip theorem at a concrete two-byte PNG
media file. -/
theorem export_build_roundTrip_witness :
    ∃ pkg,
      createEventPackage "t8" "id8" (fun _ => none) [] (some wFileC8) {} =
        Except.ok pkg ∧
      zipLookup (exportEventPackageAsZip pkg {})
          ("annotations.json".toList) =
        some (ZipContentValue.jsonAnn pkg.annotations) :=
  ⟨_, rfl, (export_build_roundTrip "t8" "id8" (fun _ => none) [] wFileC8
    {} _ rfl (by decide) (by decide)).1⟩



/-! ### Theorems about the identity store -/

/-- C9: on a fresh store, the first `storeKeyPair` persists the first
generated pair; a second call - whatever pair it freshly generates -
hits the duplicate-key insert error, absorbs it, and leaves the stored
material unchanged, so retrieval returns the first pair's material both
times and at most one pair (the first) is ever persisted. -/
theorem storeKeyPair_idempotent (g1 g2 : KeyPairMaterial) :
    ∃ st1 st2,
      storeKeyPair g1 none = Except.ok st1 ∧
      storeKeyPair g2 st1 = Except.ok st2 ∧
      st2 = st1 ∧
      retrieveKeyPair 1 st1 =
        (some g1.publicKey, some g1.privateKey) ∧
      retrieveKeyPair 1 st2 =
        (some g1.publicKey, some g1.privateKey) ∧
      st1 = some
        { pub := g1.publicKey, priv := g1.privateKey, kid := 1 } := by
  refine ⟨some { pub := g1.publicKey, priv := g1.privateKey, kid := 1 },
    some { pub := g1.publicKey, priv := g1.privateKey, kid := 1 },
    rfl, ?_, rfl, rfl, rfl, rfl⟩
  simp [storeKeyPair, storageInsert]
  decide


end EventApp
